import Mathlib

/-!
Verification of the press-release distribution agent (`utils.py`, `app.py`).

Python source is shallowly embedded: pure text processing becomes Lean
functions on `String`/`List Char`; every external interaction (HTTP fetch,
LLM call, SMTP, social APIs) is abstracted as an environment record whose
fields return `Except Err _` so that Python exception flow is explicit;
Python `try/except` becomes a `match` on those `Except` values.  Python
dicts that the code treats as ordered key/value maps are embedded as
association lists with insert-or-overwrite; `list(set(..))` (whose
iteration order CPython leaves unspecified) is embedded as an
order-normalised deduplication — every claim about such a value is
membership-based, never order-based.
-/

/-- Error values carried by Python exceptions; the payload is opaque. -/
def Err : Type := String

/-- Python `str.lower()`: ASCII case folding, character by character (all
strings the claims touch are ASCII). -/
def pyLower (s : String) : String := String.mk (s.toList.map Char.toLower)

/-- Helper for `pySplit`: walk the characters, accumulating the current
(reversed) word. -/
def splitWsAux : List Char → List Char → List String
  | [], acc => if acc.isEmpty then [] else [String.mk acc.reverse]
  | c :: rest, acc =>
    if c.isWhitespace then
      (if acc.isEmpty then [] else [String.mk acc.reverse]) ++ splitWsAux rest []
    else splitWsAux rest (c :: acc)

/-- Python `str.split()` with no argument: split on whitespace runs, dropping
empty pieces. -/
def pySplit (s : String) : List String := splitWsAux s.toList []

/-- Python `str.strip()` with no argument: drop leading and trailing
whitespace. -/
def pyStrip (s : String) : String :=
  String.mk (((s.toList.dropWhile Char.isWhitespace).reverse.dropWhile
    Char.isWhitespace).reverse)

/-- Substring test on char lists: `pat` occurs contiguously in `s`. -/
def listSub (pat : List Char) : List Char → Bool
  | [] => pat.isEmpty
  | c :: rest => pat.isPrefixOf (c :: rest) || listSub pat rest

/-- Python `pat in s` for strings (contiguous substring test). -/
def pyIn (pat s : String) : Bool := listSub pat.toList s.toList

/-- Test that `s` ends with `pat` (used only to state the spec's suffix-based claim). -/
def strEndsWith (s pat : String) : Bool := pat.toList.isSuffixOf s.toList

/-- The part of an email address before the first `@` (spec-side helper for
stating local-part claims). -/
def emailLocalPart (e : String) : String :=
  String.mk (e.toList.takeWhile (fun c => c ≠ '@'))

/-! ## ContactExtractor: `extract_email_from_text` (utils.py lines 61-75)

The Python function is `re.findall(r'[a-zA-Z0-9._%+-]+@[a-zA-Z0-9.-]+\.[a-zA-Z]\x7b2,\x7d', text)`
followed by `list(set(...))`.  The regex is embedded as a direct scanner with
the same leftmost, non-overlapping, greedy-with-backtracking semantics:

* the local part `[a-zA-Z0-9._%+-]+` must be the maximal run of local
  characters ending right before an `@` (shortening it can never help,
  because `@` is not a local character, so the character after any shorter
  run is a local character, never `@`);
* after the `@`, the engine takes the maximal run of domain characters and
  backtracks to the rightmost `.` inside it that has at least one domain
  character before it and at least two ASCII letters immediately after it
  (the final `[a-zA-Z]\x7b2,\x7d` is greedy and last, so it takes the maximal
  letter run).
-/

/-- Character class `[a-zA-Z0-9._%+-]` (the local part of the pattern). -/
def localChar (c : Char) : Bool :=
  c.isAlpha || c.isDigit || c = '.' || c = '_' || c = '%' || c = '+' || c = '-'

/-- Character class `[a-zA-Z0-9.-]` (the domain part of the pattern). -/
def domainChar (c : Char) : Bool :=
  c.isAlpha || c.isDigit || c = '.' || c = '-'

/-- Position `k` in `dom` is a viable split point for `\.[a-zA-Z]\x7b2,\x7d`:
a dot with at least one domain character before it and at least two letters
right after it. -/
def dotOk (dom : List Char) (k : Nat) : Bool :=
  decide (1 ≤ k) && (dom.get? k == some '.') &&
    decide (2 ≤ ((dom.drop (k + 1)).takeWhile Char.isAlpha).length)

/-- The split point the backtracking engine settles on: the rightmost viable
dot position in the maximal domain-character run. -/
def bestDot (dom : List Char) : Option Nat :=
  (List.range dom.length).reverse.find? (dotOk dom)

/-- Attempt to match the email pattern at the head of `cs`.  On success,
returns the three pieces (local part, domain-before-last-dot, tld); the
matched text is `loc ++ '@' :: pre ++ '.' :: tld`. -/
def matchAt (cs : List Char) : Option (List Char × List Char × List Char) :=
  if (cs.takeWhile localChar).isEmpty then none
  else
    match cs.drop (cs.takeWhile localChar).length with
    | '@' :: r2 =>
      match bestDot (r2.takeWhile domainChar) with
      | some k =>
        some (cs.takeWhile localChar, (r2.takeWhile domainChar).take k,
          ((r2.takeWhile domainChar).drop (k + 1)).takeWhile Char.isAlpha)
      | none => none
    | _ => none

/-- The `re.findall` scan, fuelled for structural recursion: try each start
position left to right; on a match, emit it and resume right after its end
(non-overlapping).  Every step consumes at least one character while the
fuel drops by exactly one, so fuel `cs.length` (see `findEmailLists`) is
never exhausted while characters remain. -/
def findEmailListsFuel : Nat → List Char → List (List Char)
  | 0, _ => []
  | _ + 1, [] => []
  | fuel + 1, c :: rest =>
    match matchAt (c :: rest) with
    | some (loc, pre, tld) =>
      (loc ++ '@' :: (pre ++ '.' :: tld)) ::
        findEmailListsFuel fuel
          ((c :: rest).drop (loc.length + 1 + pre.length + 1 + tld.length))
    | none => findEmailListsFuel fuel rest

/-- All matches of the email pattern in `cs`, in scan order. -/
def findEmailLists (cs : List Char) : List (List Char) :=
  findEmailListsFuel cs.length cs

/-- Embedding of `extract_email_from_text` (utils.py lines 61-75): all regex matches,
deduplicated.  CPython's `list(set(emails))` leaves the order unspecified;
the embedding normalises the order, and every property proved about the
result is order-independent. -/
def extract_email_from_text (text : String) : List String :=
  ((findEmailLists text.toList).map (fun l => String.mk l)).dedup

example : extract_email_from_text "test@, @example.com, test@.com, test@example.com" =
    ["test@example.com"] := by decide

example : extract_email_from_text "contact info@smith.com now" = ["info@smith.com"] := by
  decide

/-! ## Recipient records

`search_recipients_fallback` (utils.py lines 393-503) builds dicts with keys
name/email/source/role/platform/region; `search_recipients` (lines 257-391)
builds dicts with keys name/role/email/publication/focus.  Each dict shape
becomes its own structure. -/

/-- Recipient dict shape built by `search_recipients_fallback`
(utils.py lines 469-476). -/
structure Recipient where
  name : String
  email : String
  source : String
  role : String
  platform : String
  region : String
deriving DecidableEq, Repr

/-- Recipient dict shape built by `search_recipients`
(utils.py lines 294-300, 337-343, 371-377). -/
structure NewsRecipient where
  name : String
  role : String
  email : String
  publication : String
  focus : String
deriving DecidableEq, Repr

/-! ## Deduplication (utils.py lines 488-494)

```
unique_recipients = []
seen_emails = set()
for recipient in recipients:
    if recipient['email'] not in seen_emails:
        seen_emails.add(recipient['email'])
        unique_recipients.append(recipient)
```
-/

/-- The dedup loop of `search_recipients_fallback`, with the `seen_emails`
set made explicit. -/
def dedup_recipients_aux (seen : List String) : List Recipient → List Recipient
  | [] => []
  | r :: rs =>
    if r.email ∈ seen then dedup_recipients_aux seen rs
    else r :: dedup_recipients_aux (r.email :: seen) rs

/-- Recipient deduplication as performed at utils.py lines 488-494. -/
def dedup_recipients (l : List Recipient) : List Recipient :=
  dedup_recipients_aux [] l

/-! ## Region inference (utils.py lines 461-467)

The code classifies by *substring containment* of the markers anywhere in
the lowercased URL, testing the three marker lists in order. -/

/-- Marker list tested first (europe). -/
def europeMarkers : List String := [".eu", ".de", ".fr", ".uk"]

/-- Marker list tested second (asia). -/
def asiaMarkers : List String := [".cn", ".jp", ".kr", ".in", ".sg"]

/-- Marker list tested third (latin_america). -/
def latinMarkers : List String := [".br", ".ar", ".cl", ".es"]

/-- Region classification inlined in `search_recipients_fallback`
(utils.py lines 461-467): `any(domain in href.lower() for domain in [...])`
over the three marker lists in order, defaulting to "global". -/
def infer_region (href : String) : String :=
  if europeMarkers.any (fun d => pyIn d (pyLower href)) then "europe"
  else if asiaMarkers.any (fun d => pyIn d (pyLower href)) then "asia"
  else if latinMarkers.any (fun d => pyIn d (pyLower href)) then "latin_america"
  else "global"

/-! ## Ranking (utils.py lines 496-501)

```
unique_recipients.sort(key=lambda x: (
    x['platform'] != "unknown",
    bool(x['role']),
    x['name'] != "Unknown Author",
    x['region'] != "global"
), reverse=True)
```
Python `list.sort` is stable; `reverse=True` sorts by the key tuple in
descending lexicographic order (False < True) while equal-key elements keep
their original relative order.  The embedding uses the stable `mergeSort`
with the comparison `key b ≤ key a` (descending), which has the same
specification. -/

/-- The sort key tuple of utils.py lines 497-500. -/
def rankKey (r : Recipient) : Bool × Bool × Bool × Bool :=
  (r.platform ≠ "unknown", r.role ≠ "", r.name ≠ "Unknown Author", r.region ≠ "global")

/-- Python lexicographic `≤` on 4-tuples of booleans (False < True). -/
def keyLe : Bool × Bool × Bool × Bool → Bool × Bool × Bool × Bool → Bool
  | (a1, a2, a3, a4), (b1, b2, b3, b4) =>
    (!a1 && b1) || (a1 == b1 &&
      ((!a2 && b2) || (a2 == b2 &&
        ((!a3 && b3) || (a3 == b3 && (!a4 || b4))))))

/-- Comparison used by the stable sort: `a` may precede `b` iff `a`'s key is
lexicographically at least `b`'s key (descending order). -/
def rankGe (a b : Recipient) : Bool := keyLe (rankKey b) (rankKey a)

/-- The comparison `rankGe` as a relation, for the stable sort. -/
def rankRel (a b : Recipient) : Prop := rankGe a b = true

instance : DecidableRel rankRel := fun a b => instDecidableEqBool (rankGe a b) true

/-- The ranking sort of utils.py lines 496-501.  CPython's `list.sort` with
`reverse=True` is the unique stable descending sort for this key, and a
stable sort's output is determined by the comparator and the input alone,
so any provably stable sorted permutation embeds it; `insertionSort` is
used because it is structurally recursive (kernel-evaluable). -/
def sort_recipients (l : List Recipient) : List Recipient :=
  l.insertionSort rankRel

/-! ## EmailResolver: `search_journalist_email` (utils.py lines 117-255)

External interactions are an environment:
* `search q` is the Google fetch of `perform_web_search` (lines 140-141):
  an exception or a parsed page (HTTP status plus the `div.g` result
  elements, each with an optional `div.VwiC3b` snippet text and an optional
  first-anchor href);
* `contactPage url` is `find_contact_page` (lines 77-115): that function
  catches every exception and always returns a URL string, so it is
  embedded as an opaque total function;
* `fetch url` is the `requests.get(contact_url)` of line 165;
* `gen name pub prev` is the Groq chat completion of
  `generate_search_query` (lines 199-206). -/

/-- One Google result element (`div.g`): optional snippet text, optional
href of its first anchor. -/
structure GResult where
  snippet : Option String
  link : Option String
deriving DecidableEq, Repr

/-- A fetched Google results page: HTTP status and result elements. -/
structure SearchPage where
  status : Nat
  results : List GResult
deriving DecidableEq, Repr

/-- Environment of `perform_web_search`. -/
structure WebEnv where
  search : String → Except Err SearchPage
  contactPage : String → String
  fetch : String → Except Err String

/-- The name-token test of utils.py lines 153-154 and 170:
`any(part in email.lower() for part in name.lower().split())`.
Note it tests the token against the **whole** lowercased email, not just
its local part. -/
def nameTokenMatch (name email : String) : Bool :=
  (pySplit (pyLower name)).any (fun part => pyIn part (pyLower email))

/-- The snippet loop of utils.py lines 147-156: walk the result elements;
for each snippet, extract its emails and return the first one matching a
name token.  The boolean accumulator records whether any snippet email was
iterated, i.e. whether the Python local variable `name_parts` got bound
(needed to model the `NameError` at line 170). -/
def snippetScan (name : String) : List GResult → Bool → Sum String Bool
  | [], bound => .inr bound
  | r :: rs, bound =>
    match r.snippet with
    | none => snippetScan name rs bound
    | some s =>
      let emails := extract_email_from_text s
      match emails.find? (fun e => nameTokenMatch name e) with
      | some e => .inl e
      | none => snippetScan name rs (bound || !emails.isEmpty)

/-- Embedding of `perform_web_search` (utils.py lines 131-177).  Control flow:
the whole body is under a `try` whose `except` falls through to `return ""`;
the contact-page visit (lines 163-174) is under an inner `try` whose
`except` likewise falls through to `return ""`.  If the snippet loop never
iterated an email, `name_parts` is unbound at line 170, so a nonempty
contact-page email list raises `NameError` there — caught by the inner
`except`, yielding `""` (and an empty list also yields `""`). -/
def perform_web_search (env : WebEnv) (name query : String) : String :=
  match env.search query with
  | .error _ => ""
  | .ok page =>
    if page.status = 200 then
      match snippetScan name page.results false with
      | .inl email => email
      | .inr namePartsBound =>
        match page.results.head? with
        | none => ""
        | some firstResult =>
          match firstResult.link with
          | none => ""
          | some href =>
            match env.fetch (env.contactPage href) with
            | .error _ => ""
            | .ok text =>
              let emails := extract_email_from_text text
              if namePartsBound then
                match emails.find? (fun e => nameTokenMatch name e) with
                | some e => e
                | none => ""
              else ""
    else ""

/-- Environment of the resolver: the web environment plus the Groq query
generator. -/
structure ResolverEnv where
  web : WebEnv
  gen : String → String → List String → Except Err String

/-- Embedding of `generate_search_query` (utils.py lines 179-212): the Groq completion
stripped of surrounding whitespace; any error is caught and yields `""`. -/
def generate_search_query (env : ResolverEnv) (name pub : String)
    (prev : List String) : String :=
  match env.gen name pub prev with
  | .ok q => pyStrip q
  | .error _ => ""

/-- The four templated initial queries of utils.py lines 216-221. -/
def initial_queries (name pub : String) : List String :=
  [name ++ " " ++ pub ++ " email contact",
   name ++ " " ++ pub ++ " contatti",
   name ++ " " ++ pub ++ " staff directory",
   name ++ " " ++ pub ++ " redazione contatti"]

/-- The initial-query loop of utils.py lines 227-233: return the first
non-empty search result, else the accumulated `previous_queries`. -/
def tryInitial (env : ResolverEnv) (name : String) :
    List String → List String → Sum String (List String)
  | [], prev => .inr prev
  | q :: qs, prev =>
    let email := perform_web_search env.web name q
    if email ≠ "" then .inl email
    else tryInitial env name qs (prev ++ [q])

/-- The refinement loop of utils.py lines 236-249, fuelled by the remaining
attempt budget.  Returns the result together with the number of Groq calls
made inside the loop. -/
def refineLoop (env : ResolverEnv) (name pub : String) :
    List String → Nat → String × Nat
  | _, 0 => ("", 0)
  | prev, k + 1 =>
    let q := generate_search_query env name pub prev
    if q = "" then ("", 1)
    else
      let email := perform_web_search env.web name q
      if email ≠ "" then (email, 1)
      else
        let rc := refineLoop env name pub (prev ++ [q]) k
        (rc.1, rc.2 + 1)

/-- Embedding of `search_journalist_email` (utils.py lines 214-255) instrumented with the
number of Groq query-generation calls.  The outer `try/except` (lines
214, 253-255) is dead in the embedding because every callee is total, so
the result is produced directly. -/
def search_journalist_email_aux (env : ResolverEnv) (name pub : String) :
    String × Nat :=
  match tryInitial env name (initial_queries name pub) [] with
  | .inl email => (email, 0)
  | .inr prev => refineLoop env name pub prev 5

/-- Embedding of `search_journalist_email` (utils.py lines 117-255). -/
def search_journalist_email (env : ResolverEnv) (name pub : String) : String :=
  (search_journalist_email_aux env name pub).1

/-- The web-search results actually attempted, in order: the initial-query
results up to and including the first success, then (only if all four were
empty) the refinement-loop results up to the first success or budget/
generation exhaustion.  Specification-side companion of
`search_journalist_email`, used to state that the resolver returns the
first matching email found at any stage. -/
def initialAttempts (env : ResolverEnv) (name : String) : List String → List String
  | [] => []
  | q :: qs =>
    let e := perform_web_search env.web name q
    if e ≠ "" then [e] else e :: initialAttempts env name qs

/-- Refinement-loop companion of `initialAttempts`. -/
def refineAttempts (env : ResolverEnv) (name pub : String) :
    List String → Nat → List String
  | _, 0 => []
  | prev, k + 1 =>
    let q := generate_search_query env name pub prev
    if q = "" then []
    else
      let e := perform_web_search env.web name q
      if e ≠ "" then [e] else e :: refineAttempts env name pub (prev ++ [q]) k

/-- All attempted web-search results of one resolver run, in order. -/
def resolverAttempts (env : ResolverEnv) (name pub : String) : List String :=
  match tryInitial env name (initial_queries name pub) [] with
  | .inl _ => initialAttempts env name (initial_queries name pub)
  | .inr prev =>
    initialAttempts env name (initial_queries name pub) ++
      refineAttempts env name pub prev 5

/-! ## RecipientDiscoveryEngine: `search_recipients` (utils.py lines 257-391)

Environment fields:
* `newsApiKey` is `os.getenv("NEWS_API_KEY")` (line 273); Python tests mere
  truthiness, and a missing variable behaves like `""`, so the field is a
  plain string with `≠ ""` as the truthiness test;
* `newsResp` is the News API fetch of line 286 (exception or status plus
  articles; an article carries its `author` — `""` modelling an absent or
  falsy author, matching `if article.get("author"):` — and its source name);
* `webResp` is the Google fetch of line 319 (status plus result elements,
  each with optional `h3` title text and optional `div.VwiC3b` snippet);
* `dirResp d` is the per-directory fetch of line 362 (status plus the
  found journalist elements, each with the optional text of its `h3` or
  `strong` child);
* `resolveEmail` stands for `search_journalist_email`, embedded above and
  proved total (it always returns a string, never an exception), hence a
  plain function here. -/

/-- News API article: `author` (with `""` for absent/falsy) and the source
name `article.get("source", \x7b\x7d).get("name", "")`. -/
structure Article where
  author : String
  sourceName : String
deriving DecidableEq, Repr

/-- News API response body. -/
structure NewsResp where
  status : Nat
  articles : List Article
deriving DecidableEq, Repr

/-- One Google result element of the web-search fallback: optional `h3`
title text, optional snippet text. -/
structure G2Result where
  title : Option String
  snippet : Option String
deriving DecidableEq, Repr

/-- Web-search fallback response body. -/
structure WebResp where
  status : Nat
  results : List G2Result
deriving DecidableEq, Repr

/-- Media-directory page: status and per-journalist-element optional name
text (`journalist.find("h3") or journalist.find("strong")`). -/
structure DirResp where
  status : Nat
  entries : List (Option String)
deriving DecidableEq, Repr

/-- Environment of `search_recipients`. -/
structure SearchEnv where
  newsApiKey : String
  newsResp : Except Err NewsResp
  webResp : Except Err WebResp
  dirResp : String → Except Err DirResp
  resolveEmail : String → String → String

/-- The `focus` field value `f"Articoli su \x7b', '.join(topics)\x7d"`. -/
def focusOf (topics : List String) : String :=
  "Articoli su " ++ String.intercalate ", " topics

/-- News API strategy body (utils.py lines 292-306): one recipient per
article with a truthy author.  The dict is built with `email: ""` and then
unconditionally resolved (the `if not recipient["email"]:` at line 302 is
always true for News API articles), so the embedding resolves directly. -/
def newsRecipientsOf (env : SearchEnv) (topics : List String)
    (articles : List Article) : List NewsRecipient :=
  (articles.filter (fun a => a.author ≠ "")).map (fun a =>
    { name := a.author
      role := "Giornalista"
      email := env.resolveEmail a.author a.sourceName
      publication := a.sourceName
      focus := focusOf topics })

/-- The media-contact keywords of utils.py line 331. -/
def mediaKeywords : List String :=
  ["giornalista", "redattore", "editore", "contatti", "rubrica"]

/-- Web-search fallback body (utils.py lines 326-349): for each result with
a title matching a media keyword and a snippet, take the first regex email
match in the snippet (`re.search`, line 336) or resolve by name. -/
def webRecipientsOf (env : SearchEnv) (topics : List String)
    (results : List G2Result) : List NewsRecipient :=
  results.flatMap (fun r =>
    match r.title with
    | none => []
    | some t =>
      if mediaKeywords.any (fun kw => pyIn kw (pyLower t)) then
        match r.snippet with
        | none => []
        | some sn =>
          let e0 := (((findEmailLists sn.toList).map
            (fun l => String.mk l)).head?).getD ""
          [{ name := t
             role := "Giornalista"
             email := if e0 = "" then env.resolveEmail t "" else e0
             publication := "Da determinare"
             focus := focusOf topics }]
      else [])

/-- The fixed media-directory URLs of utils.py lines 354-357. -/
def media_directories : List String :=
  ["https://www.odg.it/elenco-giornalisti/", "https://www.fnsi.it/elenco-giornalisti/"]

/-- Directory strategy body for one directory page (utils.py lines
366-382): one recipient per element with a name, stripped, email resolved
by name. -/
def dirRecipientsOf (env : SearchEnv) (topics : List String)
    (entries : List (Option String)) : List NewsRecipient :=
  entries.filterMap (fun e =>
    e.map (fun n =>
      { name := pyStrip n
        role := "Giornalista"
        email := env.resolveEmail (pyStrip n) ""
        publication := "Da determinare"
        focus := focusOf topics }))

/-- The directory loop (utils.py lines 359-384): each directory fetch is
under its own `try/except` that logs and continues, and the loop visits
both directories unconditionally. -/
def dirStage (env : SearchEnv) (topics : List String) : List NewsRecipient :=
  media_directories.flatMap (fun d =>
    match env.dirResp d with
    | .error _ => []
    | .ok resp =>
      if resp.status = 200 then dirRecipientsOf env topics resp.entries else [])

/-- The body of `search_recipients` under its outer `try` (utils.py lines
271-387), returning the accumulated recipients together with the exception
(if any) that escaped to the outer handler.  The News API fetch (line 286)
and the web-search fetch (line 319) are *not* individually guarded, so
their exceptions escape with whatever was accumulated so far. -/
def search_recipients_run (env : SearchEnv) (topics : List String) :
    List NewsRecipient × Option Err :=
  let step1 : List NewsRecipient × Option Err :=
    if env.newsApiKey ≠ "" then
      match env.newsResp with
      | .error e => ([], some e)
      | .ok resp =>
        (if resp.status = 200 then newsRecipientsOf env topics resp.articles
         else [], none)
    else ([], none)
  match step1 with
  | (recs, some e) => (recs, some e)
  | (recs1, none) =>
    if recs1.isEmpty then
      match env.webResp with
      | .error e => (recs1, some e)
      | .ok w =>
        let recs2 := recs1 ++
          (if w.status = 200 then webRecipientsOf env topics w.results else [])
        if recs2.isEmpty then (recs2 ++ dirStage env topics, none)
        else (recs2, none)
    else (recs1, none)

/-- Embedding of `search_recipients` (utils.py lines 257-391).  Both the normal path
(line 387) and the outer `except` (lines 389-391) return the accumulated
`recipients` list, so every run produces a normal value. -/
def search_recipients (env : SearchEnv) (topics : List String) :
    Except Err (List NewsRecipient) :=
  Except.ok (search_recipients_run env topics).1

/-! ## DistributionWorkflow (app.py)

`AgentState` (app.py lines 71-96); the two status dicts are embedded as
association lists (Python dicts preserve insertion order and `not d` tests
emptiness). -/

/-- The workflow state record (app.py lines 71-96). -/
structure AgentState where
  topic : String
  press_release : String
  press_release_url : String
  recipients : List NewsRecipient
  email_status : List (String × Bool)
  email_url : String
  social_media_status : List (String × Bool)
  current_step : String
  approved : Bool
  topics : List String
deriving DecidableEq, Repr

/-- Embedding of `recipient_search` (app.py lines 144-166): calls `search_recipients`
unconditionally (the function never reads `approved`); an empty result
shows a UI error and returns the state unchanged; an exception in the
`try` empties the recipients list.  The stage contains no storage or send
call. -/
def recipient_search (env : SearchEnv) (s : AgentState) : AgentState :=
  match search_recipients env s.topics with
  | .error _ => { s with recipients := [] }
  | .ok recs =>
    if recs.isEmpty then s
    else { s with recipients := recs, current_step := "recipients", approved := false }

/-! ## Social media posting (utils.py lines 562-641, app.py lines 234-268)

Environment: per platform, whether the credentials are all configured
(Python truthiness of the env vars) and the outcome of the posting block;
each platform block is under its own `try/except` that merely logs, so a
posting exception leaves that platform's status `False`. -/

/-- Environment of `post_to_social_media`. -/
structure SocialEnv where
  twitterCreds : Bool
  twitterPost : Except Err Unit
  linkedinCreds : Bool
  linkedinPost : Except Err Unit
  facebookCreds : Bool
  facebookPost : Except Err Unit

/-- One platform block (e.g. utils.py lines 583-601): status becomes `True`
iff the credentials are configured and the posting calls succeed; any
exception is caught by the per-platform `except`. -/
def platformOk (creds : Bool) (post : Except Err Unit) : Bool :=
  creds && (match post with | .ok _ => true | .error _ => false)

/-- The all-false status dict (utils.py lines 575-579 and 637-641). -/
def allFalseStatus : List (String × Bool) :=
  [("twitter", false), ("linkedin", false), ("facebook", false)]

/-- The body of `post_to_social_media` under its outer `try` (utils.py
lines 581-633): build the per-platform status dict, then
`if not any(status.values()): raise Exception(...)` (lines 630-631). -/
def post_to_social_media_body (env : SocialEnv) : Except Err (List (String × Bool)) :=
  let status : List (String × Bool) :=
    [("twitter", platformOk env.twitterCreds env.twitterPost),
     ("linkedin", platformOk env.linkedinCreds env.linkedinPost),
     ("facebook", platformOk env.facebookCreds env.facebookPost)]
  if !(status.any (fun p => p.2)) then
    Except.error "Failed to post to any social media platform"
  else Except.ok status

/-- Embedding of `post_to_social_media` (utils.py lines 562-641): the outer `except`
(lines 635-641) catches the body's own total-failure exception and returns
the all-false dict, so the function never raises. -/
def post_to_social_media (env : SocialEnv) : Except Err (List (String × Bool)) :=
  match post_to_social_media_body env with
  | .ok s => Except.ok s
  | .error _ => Except.ok allFalseStatus

/-- Embedding of `social_media_poster` (app.py lines 234-268).  `if not
state.get("press_release")` raises; with `approved`, the posting status is
taken and `if not social_media_status: raise` (lines 258-259) tests Python
dict truthiness, i.e. emptiness; the outer `except` re-raises. -/
def social_media_poster (env : SocialEnv) (s : AgentState) :
    Except Err AgentState :=
  if s.press_release = "" then Except.error "Press release content is missing"
  else if s.approved then
    match post_to_social_media env with
    | .error e => Except.error e
    | .ok status =>
      if status.isEmpty then Except.error "Failed to post to social media"
      else Except.ok { s with social_media_status := status,
                              current_step := "social_media", approved := false }
  else Except.ok { s with current_step := "social_media", approved := false }

/-! ## Email sending (utils.py lines 505-560)

Environment: the SMTP credentials from the process environment (Python
truthiness, so a missing variable is modelled as `""`), the combined
outcome of connect/`starttls`/`login` (lines 532-534), and the per-message
outcome of building and sending one email (lines 540-549). -/

/-- Environment of `send_email`. -/
structure SmtpEnv where
  smtpUser : String
  smtpPassword : String
  connect : Except Err Unit
  sendTo : String → Except Err Unit

/-- Python dict insert-or-overwrite on an association list: an existing key
keeps its position and gets the new value, a new key is appended. -/
def dictInsert (m : List (String × Bool)) (k : String) (v : Bool) :
    List (String × Bool) :=
  if m.any (fun p => p.1 = k) then
    m.map (fun p => if p.1 = k then (k, v) else p)
  else m ++ [(k, v)]

/-- Embedding of `send_email` (utils.py lines 505-560).  Missing credentials raise
`ValueError` *outside* the `try` (lines 527-528); a connect/login failure
is caught by the outer `except` which returns the comprehension
`\x7brecipient['email']: False for recipient in recipients\x7d` (line 560); a
per-recipient failure is caught at lines 552-554 and records `False`. -/
def send_email (env : SmtpEnv) (recipients : List NewsRecipient)
    (press_release : String) : Except Err (List (String × Bool)) :=
  if !(env.smtpUser ≠ "" && env.smtpPassword ≠ "") then
    Except.error "SMTP credentials not configured"
  else
    match env.connect with
    | .error _ =>
      Except.ok (recipients.foldl (fun m r => dictInsert m r.email false) [])
    | .ok _ =>
      Except.ok (recipients.foldl (fun m r =>
        match env.sendTo r.email with
        | .ok _ => dictInsert m r.email true
        | .error _ => dictInsert m r.email false) [])

/-! ## Claim theorems -/

/-- C4: `search_recipients` always returns a (possibly empty) list and never
raises, whatever the environment does: missing API key, non-200 responses,
malformed pages and network errors in any of the three strategies all end in
a normal return of the accumulated list (both the normal path and the outer
exception handler return `recipients`). -/
theorem search_recipients_never_raises :
    ∀ (env : SearchEnv) (topics : List String),
      ∃ l : List NewsRecipient, search_recipients env topics = Except.ok l :=
  fun env topics => ⟨(search_recipients_run env topics).1, rfl⟩

/-- C8 counterexample: `"site.de.com"` has top-level-domain suffix `.com`,
which is in none of the three suffix sets, so the claim requires region
`global`; the code classifies by substring containment and yields
`europe`. -/
theorem infer_region_not_a_function_of_suffix :
    infer_region "site.de.com" = "europe" ∧
    ((europeMarkers ++ asiaMarkers ++ latinMarkers).all
      (fun suf => !(strEndsWith "site.de.com" suf))) = true := by
  decide

/-- C8 amended: region inference tests the markers by case-insensitive
substring containment anywhere in the input (not by top-level-domain
suffix), in priority order europe, asia, latin_america, defaulting to
global; the four concrete examples of the claim behave as stated. -/
theorem infer_region_substring_priority :
    (infer_region "site.com.br" = "latin_america" ∧
     infer_region "site.co.uk" = "europe" ∧
     infer_region "site.jp" = "asia" ∧
     infer_region "site.com" = "global") ∧
    ∀ s : String,
      (europeMarkers.any (fun d => pyIn d (pyLower s)) = true →
        infer_region s = "europe") ∧
      (europeMarkers.any (fun d => pyIn d (pyLower s)) = false →
       asiaMarkers.any (fun d => pyIn d (pyLower s)) = true →
        infer_region s = "asia") ∧
      (europeMarkers.any (fun d => pyIn d (pyLower s)) = false →
       asiaMarkers.any (fun d => pyIn d (pyLower s)) = false →
       latinMarkers.any (fun d => pyIn d (pyLower s)) = true →
        infer_region s = "latin_america") ∧
      (europeMarkers.any (fun d => pyIn d (pyLower s)) = false →
       asiaMarkers.any (fun d => pyIn d (pyLower s)) = false →
       latinMarkers.any (fun d => pyIn d (pyLower s)) = false →
        infer_region s = "global") := by
  refine ⟨by decide, ?_⟩
  intro s
  refine ⟨fun h1 => ?_, fun h1 h2 => ?_, fun h1 h2 h3 => ?_, fun h1 h2 h3 => ?_⟩
  · simp only [infer_region, h1, if_true]
  · simp only [infer_region, h1, h2, Bool.false_eq_true, if_false, if_true]
  · simp only [infer_region, h1, h2, h3, Bool.false_eq_true, if_false, if_true]
  · simp only [infer_region, h1, h2, h3, Bool.false_eq_true, if_false]

/-- C8 witness: the amended theorem applied at `"site.jp"`. -/
theorem infer_region_substring_witness : infer_region "site.jp" = "asia" :=
  ((infer_region_substring_priority.2 "site.jp").2.1 (by decide) (by decide))

/-- Two distinct recipients whose email is the empty string. -/
def emptyEmailA : Recipient :=
  { name := "Author A", email := "", source := "a.com", role := "",
    platform := "unknown", region := "global" }

/-- Second empty-email recipient, distinct from `emptyEmailA`. -/
def emptyEmailB : Recipient :=
  { name := "Author B", email := "", source := "b.com", role := "",
    platform := "unknown", region := "global" }

/-- C1 counterexample: the dedup loop adds `""` to `seen_emails` like any
other value, so the second empty-email recipient is dropped — empty-email
recipients are *not* all retained. -/
theorem dedup_drops_second_empty_email_recipient :
    emptyEmailB ∈ [emptyEmailA, emptyEmailB] ∧ emptyEmailB.email = "" ∧
    emptyEmailB ∉ dedup_recipients [emptyEmailA, emptyEmailB] := by
  decide

theorem dedup_aux_sublist (l : List Recipient) :
    ∀ seen : List String, (dedup_recipients_aux seen l).Sublist l := by
  induction l with
  | nil => intro seen; simp [dedup_recipients_aux]
  | cons r rs ih =>
    intro seen
    by_cases hm : r.email ∈ seen
    · simp only [dedup_recipients_aux, if_pos hm]
      exact (ih seen).cons r
    · simp only [dedup_recipients_aux, if_neg hm]
      exact (ih (r.email :: seen)).cons₂ r

theorem dedup_aux_not_seen (l : List Recipient) :
    ∀ (seen : List String), ∀ r' ∈ dedup_recipients_aux seen l, r'.email ∉ seen := by
  induction l with
  | nil => intro seen r' h; simp [dedup_recipients_aux] at h
  | cons r rs ih =>
    intro seen r' h
    by_cases hm : r.email ∈ seen
    · rw [show dedup_recipients_aux seen (r :: rs) =
        dedup_recipients_aux seen rs from by
          simp only [dedup_recipients_aux, if_pos hm]] at h
      exact ih seen r' h
    · rw [show dedup_recipients_aux seen (r :: rs) =
        r :: dedup_recipients_aux (r.email :: seen) rs from by
          simp only [dedup_recipients_aux, if_neg hm]] at h
      rw [List.mem_cons] at h
      rcases h with rfl | h
      · exact hm
      · intro hs
        exact ih (r.email :: seen) r' h (List.mem_cons_of_mem _ hs)

theorem dedup_aux_emails_nodup (l : List Recipient) :
    ∀ seen : List String,
      ((dedup_recipients_aux seen l).map (fun r => r.email)).Nodup := by
  induction l with
  | nil => intro seen; simp [dedup_recipients_aux]
  | cons r rs ih =>
    intro seen
    by_cases hm : r.email ∈ seen
    · simp only [dedup_recipients_aux, if_pos hm]
      exact ih seen
    · simp only [dedup_recipients_aux, if_neg hm, List.map_cons, List.nodup_cons]
      refine ⟨?_, ih _⟩
      intro hmem
      rw [List.mem_map] at hmem
      rcases hmem with ⟨x, hx, hex⟩
      exact dedup_aux_not_seen rs (r.email :: seen) x hx
        (hex ▸ List.mem_cons_self _ _)

theorem dedup_aux_covers (l : List Recipient) :
    ∀ (seen : List String), ∀ r ∈ l,
      r.email ∈ seen ∨
        ∃ r' ∈ dedup_recipients_aux seen l, r'.email = r.email := by
  induction l with
  | nil => intro seen r h; cases h
  | cons a rs ih =>
    intro seen r h
    rw [List.mem_cons] at h
    by_cases hm : a.email ∈ seen
    · simp only [dedup_recipients_aux, if_pos hm]
      rcases h with rfl | h
      · exact Or.inl hm
      · exact ih seen r h
    · simp only [dedup_recipients_aux, if_neg hm]
      rcases h with rfl | h
      · exact Or.inr ⟨r, List.mem_cons_self _ _, rfl⟩
      · rcases ih (a.email :: seen) r h with hseen | ⟨r', hr', he⟩
        · rw [List.mem_cons] at hseen
          rcases hseen with heq | hseen
          · exact Or.inr ⟨a, List.mem_cons_self _ _, heq.symm⟩
          · exact Or.inl hseen
        · exact Or.inr ⟨r', List.mem_cons_of_mem _ hr', he⟩

theorem dedup_aux_first (l : List Recipient) :
    ∀ (seen : List String), ∀ r' ∈ dedup_recipients_aux seen l,
      l.find? (fun x => x.email == r'.email) = some r' := by
  induction l with
  | nil => intro seen r' h; simp [dedup_recipients_aux] at h
  | cons a rs ih =>
    intro seen r' h
    by_cases hm : a.email ∈ seen
    · rw [show dedup_recipients_aux seen (a :: rs) =
        dedup_recipients_aux seen rs from by
          simp only [dedup_recipients_aux, if_pos hm]] at h
      have hne : ¬ ((a.email == r'.email) = true) := by
        intro he
        rw [beq_iff_eq] at he
        exact dedup_aux_not_seen rs seen r' h (he ▸ hm)
      have step : List.find? (fun x => x.email == r'.email) (a :: rs) =
          List.find? (fun x => x.email == r'.email) rs :=
        List.find?_cons_of_neg _ hne
      rw [step]
      exact ih seen r' h
    · rw [show dedup_recipients_aux seen (a :: rs) =
        a :: dedup_recipients_aux (a.email :: seen) rs from by
          simp only [dedup_recipients_aux, if_neg hm]] at h
      rw [List.mem_cons] at h
      rcases h with rfl | h
      · exact List.find?_cons_of_pos _ (by simp)
      · have hne : ¬ ((a.email == r'.email) = true) := by
          intro he
          rw [beq_iff_eq] at he
          exact dedup_aux_not_seen rs (a.email :: seen) r' h
            (he ▸ List.mem_cons_self _ _)
        have step : List.find? (fun x => x.email == r'.email) (a :: rs) =
            List.find? (fun x => x.email == r'.email) rs :=
          List.find?_cons_of_neg _ hne
        rw [step]
        exact ih (a.email :: seen) r' h

/-- C1 amended: deduplication collapses candidates by their email field with
*every* email value treated alike, the empty string included: the output is
a sublist of the input (discovery order retained), its emails are pairwise
distinct (so at most one empty-email recipient survives), every input email
value is represented, and each surviving recipient is exactly the first
input recipient carrying its email. -/
theorem dedup_recipients_collapse_by_email_keeps_first :
    ∀ l : List Recipient,
      (dedup_recipients l).Sublist l ∧
      ((dedup_recipients l).map (fun r => r.email)).Nodup ∧
      (∀ r ∈ l, ∃ r' ∈ dedup_recipients l, r'.email = r.email) ∧
      (∀ r' ∈ dedup_recipients l,
        l.find? (fun x => x.email == r'.email) = some r') := by
  intro l
  refine ⟨dedup_aux_sublist l [], dedup_aux_emails_nodup l [], ?_,
    fun r' h => dedup_aux_first l [] r' h⟩
  intro r h
  rcases dedup_aux_covers l [] r h with hseen | hex
  · cases hseen
  · exact hex

/-- C1 witness: the amended theorem applied to the two-recipient list of the
counterexample — the sole survivor of the empty email is its first carrier. -/
theorem dedup_recipients_collapse_witness :
    [emptyEmailA, emptyEmailB].find? (fun x => x.email == emptyEmailA.email) =
      some emptyEmailA :=
  (dedup_recipients_collapse_by_email_keeps_first
    [emptyEmailA, emptyEmailB]).2.2.2 emptyEmailA (by decide)

theorem keyLe_trans_bool :
    ∀ x y z : Bool × Bool × Bool × Bool,
      keyLe x y = true → keyLe y z = true → keyLe x z = true := by decide

theorem keyLe_total_bool :
    ∀ x y : Bool × Bool × Bool × Bool, keyLe x y = true ∨ keyLe y x = true := by
  decide

theorem keyLe_refl_bool : ∀ x : Bool × Bool × Bool × Bool, keyLe x x = true := by
  decide

instance : IsTrans Recipient rankRel :=
  ⟨fun _ _ _ hab hbc => keyLe_trans_bool _ _ _ hbc hab⟩

instance : IsTotal Recipient rankRel :=
  ⟨fun a b => keyLe_total_bool (rankKey b) (rankKey a)⟩

/-- C9: the ranking is a stable descending sort on the four criteria
(non-"unknown" platform, non-empty role, non-placeholder name, non-"global"
region): the output is a permutation of the input, pairwise sorted by
descending key, ties (equal keys) keep their discovery order, and on the
claim's two concrete recipients the fully-qualified one sorts first. -/
theorem sort_recipients_stable_descending :
    (∀ l : List Recipient,
      (sort_recipients l).Perm l ∧
      List.Sorted rankRel (sort_recipients l) ∧
      (∀ a b : Recipient, rankKey a = rankKey b → [a, b].Sublist l →
        [a, b].Sublist (sort_recipients l))) ∧
    sort_recipients
        [{ name := "Unknown Author", email := "", source := "", role := "",
           platform := "unknown", region := "global" },
         { name := "Jane Doe", email := "", source := "", role := "Editor",
           platform := "bbc.com", region := "europe" }] =
      [{ name := "Jane Doe", email := "", source := "", role := "Editor",
         platform := "bbc.com", region := "europe" },
       { name := "Unknown Author", email := "", source := "", role := "",
         platform := "unknown", region := "global" }] := by
  constructor
  · intro l
    refine ⟨List.perm_insertionSort _ _, List.sorted_insertionSort _ _, ?_⟩
    intro a b hk hsub
    refine List.pair_sublist_insertionSort ?_ hsub
    show keyLe (rankKey b) (rankKey a) = true
    rw [← hk]
    exact keyLe_refl_bool (rankKey a)
  · decide

/-- C9 witness: the stability conjunct applied to two concrete equal-key
recipients. -/
theorem sort_recipients_stable_witness :
    [({ name := "A", email := "a@x.com", source := "", role := "Editor",
        platform := "x.com", region := "europe" } : Recipient),
     { name := "B", email := "b@x.com", source := "", role := "Writer",
       platform := "x.com", region := "europe" }].Sublist
      (sort_recipients
        [{ name := "A", email := "a@x.com", source := "", role := "Editor",
           platform := "x.com", region := "europe" },
         { name := "B", email := "b@x.com", source := "", role := "Writer",
           platform := "x.com", region := "europe" }]) :=
  ((sort_recipients_stable_descending.1 _).2.2 _ _ (by decide)
    (List.Sublist.refl _))

/-- Environment in which every platform fails: all credentials are present
but each posting call raises. -/
def socialFailEnv : SocialEnv :=
  { twitterCreds := true, twitterPost := Except.error "tw",
    linkedinCreds := true, linkedinPost := Except.error "li",
    facebookCreds := true, facebookPost := Except.error "fb" }

/-- Workflow state at the email→social transition, approved, with a
non-empty press release. -/
def stateBeforeSocial : AgentState :=
  { topic := "AI", press_release := "Comunicato stampa", press_release_url := "",
    recipients := [], email_status := [], email_url := "",
    social_media_status := [], current_step := "email", approved := true,
    topics := [] }

/-- C2: when every platform fails, `post_to_social_media`'s own
total-failure exception is swallowed by its outer handler (it returns the
all-false dict instead of raising), and `social_media_poster`'s
`if not social_media_status:` check never fires on the non-empty dict, so
the stage returns normally and advances `current_step` to `"social_media"`
— contradicting both functions' documented `Raises` contract. -/
theorem social_media_total_failure_advances_step :
    post_to_social_media socialFailEnv = Except.ok allFalseStatus ∧
    social_media_poster socialFailEnv stateBeforeSocial =
      Except.ok
        { stateBeforeSocial with
          social_media_status := allFalseStatus
          current_step := "social_media"
          approved := false } :=
  ⟨rfl, rfl⟩

theorem dictInsert_all_false (m : List (String × Bool)) (k : String)
    (hm : ∀ p ∈ m, p.2 = false) :
    ∀ p ∈ dictInsert m k false, p.2 = false := by
  intro p hp
  unfold dictInsert at hp
  split at hp
  · rw [List.mem_map] at hp
    rcases hp with ⟨q, hq, rfl⟩
    split
    · rfl
    · exact hm q hq
  · rw [List.mem_append] at hp
    rcases hp with hp | hp
    · exact hm p hp
    · rw [List.mem_singleton] at hp
      rw [hp]

theorem dictInsert_mem_key (m : List (String × Bool)) (k : String) (v : Bool) :
    ∃ p ∈ dictInsert m k v, p.1 = k := by
  unfold dictInsert
  split
  · rename_i hany
    rw [List.any_eq_true] at hany
    rcases hany with ⟨q, hq, hqk⟩
    have hqk' : q.1 = k := of_decide_eq_true hqk
    refine ⟨(k, v), ?_, rfl⟩
    rw [List.mem_map]
    exact ⟨q, hq, by simp [hqk']⟩
  · exact ⟨(k, v), by simp, rfl⟩

theorem dictInsert_preserves_key (m : List (String × Bool)) (k : String)
    (v : Bool) (k' : String) (h : ∃ p ∈ m, p.1 = k') :
    ∃ p ∈ dictInsert m k v, p.1 = k' := by
  rcases h with ⟨p, hp, hpk⟩
  unfold dictInsert
  split
  · by_cases hk : p.1 = k
    · refine ⟨(k, v), ?_, by rw [← hpk, hk]⟩
      rw [List.mem_map]
      exact ⟨p, hp, by simp [hk]⟩
    · refine ⟨p, ?_, hpk⟩
      rw [List.mem_map]
      exact ⟨p, hp, by simp [hk]⟩
  · exact ⟨p, by rw [List.mem_append]; exact Or.inl hp, hpk⟩

theorem foldl_dictInsert_false_all (rs : List NewsRecipient) :
    ∀ m : List (String × Bool), (∀ p ∈ m, p.2 = false) →
      ∀ p ∈ rs.foldl (fun acc r => dictInsert acc r.email false) m, p.2 = false := by
  induction rs with
  | nil => intro m hm; exact hm
  | cons r rest ih =>
    intro m hm
    exact ih (dictInsert m r.email false) (dictInsert_all_false m r.email hm)

theorem foldl_dictInsert_preserves_key (rs : List NewsRecipient) :
    ∀ (m : List (String × Bool)) (k : String), (∃ p ∈ m, p.1 = k) →
      ∃ p ∈ rs.foldl (fun acc r => dictInsert acc r.email false) m, p.1 = k := by
  induction rs with
  | nil => intro m k h; exact h
  | cons r rest ih =>
    intro m k h
    exact ih (dictInsert m r.email false) k
      (dictInsert_preserves_key m r.email false k h)

theorem foldl_dictInsert_false_covers (rs : List NewsRecipient) :
    ∀ (m : List (String × Bool)), ∀ r ∈ rs,
      ∃ p ∈ rs.foldl (fun acc r => dictInsert acc r.email false) m, p.1 = r.email := by
  induction rs with
  | nil => intro m r h; cases h
  | cons a rest ih =>
    intro m r h
    rw [List.mem_cons] at h
    rcases h with rfl | h
    · exact foldl_dictInsert_preserves_key rest (dictInsert m r.email false)
        r.email (dictInsert_mem_key m r.email false)
    · exact ih (dictInsert m a.email false) r h

theorem lookup_of_all_false (m : List (String × Bool)) (k : String)
    (hall : ∀ p ∈ m, p.2 = false) (hkey : ∃ p ∈ m, p.1 = k) :
    m.lookup k = some false := by
  induction m with
  | nil =>
    rcases hkey with ⟨p, hp, _⟩
    cases hp
  | cons q rest ih =>
    obtain ⟨k', v⟩ := q
    by_cases hk : k = k'
    · have hv : v = false := hall (k', v) (List.mem_cons_self _ _)
      simp [List.lookup, hk, hv]
    · have hbeq : (k == k') = false := by
        rw [beq_eq_false_iff_ne]
        exact hk
      rw [show ((k', v) :: rest).lookup k = rest.lookup k from by
        simp [List.lookup, hbeq]]
      refine ih (fun p hp => hall p (List.mem_cons_of_mem _ hp)) ?_
      rcases hkey with ⟨p, hp, hpk⟩
      rw [List.mem_cons] at hp
      rcases hp with rfl | hp
      · exact absurd hpk.symm (by simpa using hk)
      · exact ⟨p, hp, hpk⟩

/-- C10: if the SMTP credentials are configured but the connection/login
attempt fails before any message is sent, `send_email` does not raise: it
returns the dict comprehension mapping every recipient's email to `False`,
so transport-level failure is reported uniformly per recipient. -/
theorem send_email_connect_failure_reports_all_false :
    ∀ (env : SmtpEnv) (recipients : List NewsRecipient) (pr : String) (e : Err),
      env.smtpUser ≠ "" → env.smtpPassword ≠ "" →
      env.connect = Except.error e →
      ∃ m, send_email env recipients pr = Except.ok m ∧
        ∀ r ∈ recipients, m.lookup r.email = some false := by
  intro env recipients pr e hu hp hc
  refine ⟨recipients.foldl (fun acc r => dictInsert acc r.email false) [], ?_, ?_⟩
  · unfold send_email
    rw [hc]
    simp [hu, hp]
  · intro r hr
    exact lookup_of_all_false _ _
      (foldl_dictInsert_false_all recipients [] (by simp))
      (foldl_dictInsert_false_covers recipients [] r hr)

/-- C10 witness: the theorem applied to a concrete environment whose
connection fails and a single concrete recipient. -/
theorem send_email_connect_failure_witness :
    ∃ m, send_email
        { smtpUser := "user", smtpPassword := "pass",
          connect := Except.error "boom", sendTo := fun _ => Except.ok () }
        [{ name := "N", role := "Giornalista", email := "n@x.com",
           publication := "P", focus := "F" }] "pr" = Except.ok m ∧
      ∀ r ∈ [({ name := "N", role := "Giornalista", email := "n@x.com",
                publication := "P", focus := "F" } : NewsRecipient)],
        m.lookup r.email = some false :=
  send_email_connect_failure_reports_all_false
    { smtpUser := "user", smtpPassword := "pass",
      connect := Except.error "boom", sendTo := fun _ => Except.ok () }
    [{ name := "N", role := "Giornalista", email := "n@x.com",
       publication := "P", focus := "F" }] "pr" "boom"
    (by decide) (by decide) rfl

/-- Discovery environment for the C3 run: the News API strategy succeeds
with one authored article, and the resolver finds that author's email. -/
def envC3 : SearchEnv :=
  { newsApiKey := "key",
    newsResp := Except.ok
      { status := 200,
        articles := [{ author := "Mario Rossi", sourceName := "Corriere" }] },
    webResp := Except.error "net",
    dirResp := fun _ => Except.error "net",
    resolveEmail := fun _ _ => "mario@corriere.it" }

/-- The recipient `envC3`'s discovery produces. -/
def recipientC3 : NewsRecipient :=
  { name := "Mario Rossi", role := "Giornalista", email := "mario@corriere.it",
    publication := "Corriere", focus := "Articoli su IA" }

/-- Workflow state holding a prior run's discovered recipient, not
approved. -/
def stateC3 : AgentState :=
  { topic := "AI", press_release := "Comunicato", press_release_url := "",
    recipients := [{ name := "Old Person", role := "Giornalista",
                     email := "old@pub.it", publication := "Pub",
                     focus := "Articoli su IA" }],
    email_status := [], email_url := "", social_media_status := [],
    current_step := "topics", approved := false, topics := ["IA"] }

/-- C3 counterexample: `recipient_search` never reads `approved`; invoked
with `approved=false` on a state holding a prior run's recipients, it
overwrites the recipients field with the fresh discovery result. -/
theorem recipient_search_unapproved_overwrites_recipients :
    stateC3.approved = false ∧
    (recipient_search envC3 stateC3).recipients ≠ stateC3.recipients ∧
    (recipient_search envC3 stateC3).recipients = [recipientC3] := by
  refine ⟨rfl, ?_, by decide⟩
  decide

/-- C3 amended: the recipients-discovery stage performs no storage or send
side effect regardless of `approved` (the storage/send bookkeeping fields
are untouched, and the stage contains no storage or send call), but it does
not preserve the recipients field: a non-empty discovery overwrites it and
advances `current_step` to `"recipients"`; an empty discovery leaves the
whole state unchanged (so `current_step` is then *not* advanced). -/
theorem recipient_search_no_storage_or_send_effects :
    ∀ (env : SearchEnv) (s : AgentState),
      ((recipient_search env s).press_release_url = s.press_release_url ∧
       (recipient_search env s).email_status = s.email_status ∧
       (recipient_search env s).email_url = s.email_url ∧
       (recipient_search env s).social_media_status = s.social_media_status) ∧
      ∀ recs, search_recipients env s.topics = Except.ok recs →
        (recs = [] → recipient_search env s = s) ∧
        (recs ≠ [] → recipient_search env s =
          { s with recipients := recs, current_step := "recipients",
                   approved := false }) := by
  intro env s
  have hrun : recipient_search env s =
      if (search_recipients_run env s.topics).1.isEmpty then s
      else { s with recipients := (search_recipients_run env s.topics).1,
                    current_step := "recipients", approved := false } := rfl
  constructor
  · rw [hrun]
    split <;> exact ⟨rfl, rfl, rfl, rfl⟩
  · intro recs hrecs
    have hrecs' : (search_recipients_run env s.topics).1 = recs :=
      Except.ok.inj hrecs
    constructor
    · intro hnil
      rw [hrun, hrecs', hnil]
      simp
    · intro hne
      rw [hrun, hrecs']
      simp [List.isEmpty_iff, hne]

/-- C3 witness: the amended theorem applied to the concrete C3 environment
and state — the non-empty discovery case. -/
theorem recipient_search_frame_witness :
    recipient_search envC3 stateC3 =
      { stateC3 with recipients := [recipientC3],
                     current_step := "recipients", approved := false } :=
  ((recipient_search_no_storage_or_send_effects envC3 stateC3).2
    [recipientC3] rfl).2 (by decide)

/-- The shape claimed by the spec for extracted emails: `local@domain.tld`
with non-empty local part, non-empty domain part before the final dot, and
non-empty tld. -/
def validEmailShape (e : String) : Prop :=
  ∃ l d t : String,
    e = l ++ "@" ++ d ++ "." ++ t ∧ l ≠ "" ∧ d ≠ "" ∧ t ≠ ""

theorem bestDot_ok {dom : List Char} {k : Nat} (h : bestDot dom = some k) :
    1 ≤ k ∧ k < dom.length ∧
      2 ≤ ((dom.drop (k + 1)).takeWhile Char.isAlpha).length := by
  unfold bestDot at h
  have hk := List.find?_some h
  have hmem := List.mem_of_find?_eq_some h
  rw [List.mem_reverse, List.mem_range] at hmem
  unfold dotOk at hk
  rw [Bool.and_eq_true, Bool.and_eq_true] at hk
  obtain ⟨⟨h1, _⟩, h3⟩ := hk
  exact ⟨of_decide_eq_true h1, hmem, of_decide_eq_true h3⟩

theorem matchAt_pieces {cs loc pre tld : List Char}
    (h : matchAt cs = some (loc, pre, tld)) :
    loc ≠ [] ∧ pre ≠ [] ∧ 2 ≤ tld.length := by
  unfold matchAt at h
  split at h
  · cases h
  · rename_i hemp
    split at h
    · rename_i r2 heq
      cases hbd : bestDot (r2.takeWhile domainChar) with
      | none => rw [hbd] at h; cases h
      | some k =>
        rw [hbd] at h
        rw [Option.some.injEq, Prod.mk.injEq, Prod.mk.injEq] at h
        obtain ⟨hl, hp, ht⟩ := h
        obtain ⟨hk1, hk2, hk3⟩ := bestDot_ok hbd
        refine ⟨?_, ?_, ?_⟩
        · intro hnil
          apply hemp
          rw [hl, hnil]
          rfl
        · rw [← hp]
          apply List.ne_nil_of_length_pos
          rw [List.length_take]
          rw [lt_min_iff]
          exact ⟨hk1, by omega⟩
        · rw [← ht]
          exact hk3
    · cases h

theorem findEmailListsFuel_shape :
    ∀ (fuel : Nat) (cs : List Char), ∀ m ∈ findEmailListsFuel fuel cs,
      ∃ loc pre tld : List Char,
        m = loc ++ '@' :: (pre ++ '.' :: tld) ∧
        loc ≠ [] ∧ pre ≠ [] ∧ 2 ≤ tld.length := by
  intro fuel
  induction fuel with
  | zero => intro cs m hm; simp [findEmailListsFuel] at hm
  | succ f ih =>
    intro cs m hm
    cases cs with
    | nil => simp [findEmailListsFuel] at hm
    | cons c rest =>
      rw [show findEmailListsFuel (f + 1) (c :: rest) =
          (match matchAt (c :: rest) with
           | some (loc, pre, tld) =>
             (loc ++ '@' :: (pre ++ '.' :: tld)) ::
               findEmailListsFuel f
                 ((c :: rest).drop (loc.length + 1 + pre.length + 1 + tld.length))
           | none => findEmailListsFuel f rest) from rfl] at hm
      cases hma : matchAt (c :: rest) with
      | none => rw [hma] at hm; exact ih rest m hm
      | some triple =>
        obtain ⟨loc, pre, tld⟩ := triple
        rw [hma] at hm
        rw [List.mem_cons] at hm
        rcases hm with rfl | hm
        · obtain ⟨h1, h2, h3⟩ := matchAt_pieces hma
          exact ⟨loc, pre, tld, rfl, h1, h2, h3⟩
        · exact ih _ m hm

theorem string_of_pieces_shape {loc pre tld : List Char}
    (h1 : loc ≠ []) (h2 : pre ≠ []) (h3 : tld ≠ []) :
    validEmailShape (String.mk (loc ++ '@' :: (pre ++ '.' :: tld))) := by
  refine ⟨String.mk loc, String.mk pre, String.mk tld, ?_, ?_, ?_, ?_⟩
  · apply String.ext
    simp [String.data_append]
  · intro he
    exact h1 (congrArg String.data he)
  · intro he
    exact h2 (congrArg String.data he)
  · intro he
    exact h3 (congrArg String.data he)

/-- C7: every string `extract_email_from_text` returns has the shape
`local@domain.tld` with non-empty local part and non-empty domain part, the
result list is deduplicated, and the claim's concrete input yields exactly
`test@example.com`. -/
theorem extract_email_from_text_valid_shape :
    (∀ text : String,
      (∀ e ∈ extract_email_from_text text, validEmailShape e) ∧
      (extract_email_from_text text).Nodup) ∧
    extract_email_from_text "test@, @example.com, test@.com, test@example.com" =
      ["test@example.com"] := by
  constructor
  · intro text
    constructor
    · intro e he
      unfold extract_email_from_text at he
      rw [List.mem_dedup, List.mem_map] at he
      obtain ⟨m, hm, rfl⟩ := he
      obtain ⟨loc, pre, tld, rfl, h1, h2, h3⟩ :=
        findEmailListsFuel_shape text.toList.length text.toList m hm
      exact string_of_pieces_shape h1 h2
        (List.ne_nil_of_length_pos (Nat.lt_of_lt_of_le (by omega) h3))
    · exact List.nodup_dedup _
  · decide

/-- C7 witness: the shape conjunct applied to the concrete input of the
claim. -/
theorem extract_email_valid_shape_witness : validEmailShape "test@example.com" :=
  (extract_email_from_text_valid_shape.1
    "test@, @example.com, test@.com, test@example.com").1
    "test@example.com" (by decide)

theorem refineLoop_count (env : ResolverEnv) (name pub : String) :
    ∀ (fuel : Nat) (prev : List String),
      (refineLoop env name pub prev fuel).2 ≤ fuel := by
  intro fuel
  induction fuel with
  | zero => intro prev; simp [refineLoop]
  | succ k ih =>
    intro prev
    simp only [refineLoop]
    by_cases hq : generate_search_query env name pub prev = ""
    · rw [if_pos hq]
      omega
    · rw [if_neg hq]
      by_cases he : perform_web_search env.web name
          (generate_search_query env name pub prev) = ""
      · rw [if_neg (fun hne => hne he)]
        have := ih (prev ++ [generate_search_query env name pub prev])
        simp only []
        omega
      · rw [if_pos he]
        omega

theorem refineAttempts_length (env : ResolverEnv) (name pub : String) :
    ∀ (fuel : Nat) (prev : List String),
      (refineAttempts env name pub prev fuel).length ≤ fuel := by
  intro fuel
  induction fuel with
  | zero => intro prev; simp [refineAttempts]
  | succ k ih =>
    intro prev
    simp only [refineAttempts]
    by_cases hq : generate_search_query env name pub prev = ""
    · rw [if_pos hq]
      simp only [List.length_nil]
      omega
    · rw [if_neg hq]
      by_cases he : perform_web_search env.web name
          (generate_search_query env name pub prev) = ""
      · rw [if_neg (fun hne => hne he)]
        have := ih (prev ++ [generate_search_query env name pub prev])
        simp only [List.length_cons]
        omega
      · rw [if_pos he]
        simp only [List.length_cons, List.length_nil]
        omega

theorem initialAttempts_length (env : ResolverEnv) (name : String) :
    ∀ qs : List String, (initialAttempts env name qs).length ≤ qs.length := by
  intro qs
  induction qs with
  | nil => simp [initialAttempts]
  | cons q rest ih =>
    simp only [initialAttempts]
    by_cases he : perform_web_search env.web name q = ""
    · rw [if_neg (fun hne => hne he)]
      simp only [List.length_cons]
      omega
    · rw [if_pos he]
      simp only [List.length_cons, List.length_nil]
      omega

theorem refineLoop_attempts (env : ResolverEnv) (name pub : String) :
    ∀ (fuel : Nat) (prev : List String),
      (refineLoop env name pub prev fuel).1 =
        (((refineAttempts env name pub prev fuel).find?
          (fun x => x != "")).getD "") := by
  intro fuel
  induction fuel with
  | zero => intro prev; simp [refineLoop, refineAttempts]
  | succ k ih =>
    intro prev
    simp only [refineLoop, refineAttempts]
    by_cases hq : generate_search_query env name pub prev = ""
    · rw [if_pos hq, if_pos hq]
      simp
    · rw [if_neg hq, if_neg hq]
      by_cases he : perform_web_search env.web name
          (generate_search_query env name pub prev) = ""
      · rw [if_neg (fun hne => hne he), if_neg (fun hne => hne he)]
        have step : List.find? (fun x => x != "")
            (perform_web_search env.web name
              (generate_search_query env name pub prev) ::
              refineAttempts env name pub
                (prev ++ [generate_search_query env name pub prev]) k) =
            List.find? (fun x => x != "")
              (refineAttempts env name pub
                (prev ++ [generate_search_query env name pub prev]) k) :=
          List.find?_cons_of_neg _ (by simp [he])
        rw [step]
        exact ih (prev ++ [generate_search_query env name pub prev])
      · rw [if_pos he, if_pos he]
        have step : List.find? (fun x => x != "")
            [perform_web_search env.web name
              (generate_search_query env name pub prev)] =
            some (perform_web_search env.web name
              (generate_search_query env name pub prev)) :=
          List.find?_cons_of_pos _ (by simp [he])
        rw [step]
        rfl

theorem tryInitial_inl_attempts (env : ResolverEnv) (name : String) :
    ∀ (qs prev : List String) (e : String),
      tryInitial env name qs prev = Sum.inl e →
      (((initialAttempts env name qs).find? (fun x => x != "")).getD "") = e ∧
        e ≠ "" := by
  intro qs
  induction qs with
  | nil => intro prev e h; simp [tryInitial] at h
  | cons q rest ih =>
    intro prev e h
    simp only [tryInitial] at h
    simp only [initialAttempts]
    by_cases he : perform_web_search env.web name q = ""
    · rw [if_neg (fun hne => hne he)] at h
      rw [if_neg (fun hne => hne he)]
      have step : List.find? (fun x => x != "")
          (perform_web_search env.web name q :: initialAttempts env name rest) =
          List.find? (fun x => x != "") (initialAttempts env name rest) :=
        List.find?_cons_of_neg _ (by simp [he])
      rw [step]
      exact ih (prev ++ [q]) e h
    · rw [if_pos he] at h
      rw [if_pos he]
      have step : List.find? (fun x => x != "")
          [perform_web_search env.web name q] =
          some (perform_web_search env.web name q) :=
        List.find?_cons_of_pos _ (by simp [he])
      rw [step]
      cases h
      exact ⟨rfl, he⟩

theorem tryInitial_inr_attempts (env : ResolverEnv) (name : String) :
    ∀ (qs prev prev' : List String),
      tryInitial env name qs prev = Sum.inr prev' →
      (initialAttempts env name qs).find? (fun x => x != "") = none := by
  intro qs
  induction qs with
  | nil => intro prev prev' h; simp [initialAttempts]
  | cons q rest ih =>
    intro prev prev' h
    simp only [tryInitial] at h
    simp only [initialAttempts]
    by_cases he : perform_web_search env.web name q = ""
    · rw [if_neg (fun hne => hne he)] at h
      rw [if_neg (fun hne => hne he)]
      have step : List.find? (fun x => x != "")
          (perform_web_search env.web name q :: initialAttempts env name rest) =
          List.find? (fun x => x != "") (initialAttempts env name rest) :=
        List.find?_cons_of_neg _ (by simp [he])
      rw [step]
      exact ih (prev ++ [q]) prev' h
    · rw [if_pos he] at h
      cases h

/-- C5: the resolver is a bounded iteration: it makes at most 5 Groq
query-generation calls after the four fixed initial queries, performs at
most 4 + 5 web-search attempts in total, and its result is exactly the
first non-empty email among the attempted web-search results (so it
returns `""` precisely when the budget is exhausted or query generation
stops the loop without any attempt succeeding).  The function is total —
every network or generation error is already absorbed inside
`perform_web_search` and `generate_search_query` — so no error reaches the
caller. -/
theorem search_journalist_email_bounded_budget :
    ∀ (env : ResolverEnv) (name pub : String),
      (search_journalist_email_aux env name pub).2 ≤ 5 ∧
      (resolverAttempts env name pub).length ≤ 9 ∧
      search_journalist_email env name pub =
        (((resolverAttempts env name pub).find? (fun x => x != "")).getD "") := by
  intro env name pub
  cases ht : tryInitial env name (initial_queries name pub) [] with
  | inl e =>
    obtain ⟨hfind, _⟩ := tryInitial_inl_attempts env name _ [] e ht
    have haux : search_journalist_email_aux env name pub = (e, 0) := by
      unfold search_journalist_email_aux
      rw [ht]
    have hatt : resolverAttempts env name pub =
        initialAttempts env name (initial_queries name pub) := by
      unfold resolverAttempts
      rw [ht]
    refine ⟨?_, ?_, ?_⟩
    · rw [haux]
      exact Nat.zero_le 5
    · rw [hatt]
      have h1 := initialAttempts_length env name (initial_queries name pub)
      have h2 : (initial_queries name pub).length = 4 := rfl
      omega
    · rw [show search_journalist_email env name pub =
        (search_journalist_email_aux env name pub).1 from rfl, haux, hatt,
        hfind]
  | inr prev =>
    have haux : search_journalist_email_aux env name pub =
        refineLoop env name pub prev 5 := by
      unfold search_journalist_email_aux
      rw [ht]
    have hatt : resolverAttempts env name pub =
        initialAttempts env name (initial_queries name pub) ++
          refineAttempts env name pub prev 5 := by
      unfold resolverAttempts
      rw [ht]
    refine ⟨?_, ?_, ?_⟩
    · rw [haux]
      exact refineLoop_count env name pub 5 prev
    · rw [hatt, List.length_append]
      have h1 := initialAttempts_length env name (initial_queries name pub)
      have h2 : (initial_queries name pub).length = 4 := rfl
      have h3 := refineAttempts_length env name pub 5 prev
      omega
    · rw [show search_journalist_email env name pub =
        (search_journalist_email_aux env name pub).1 from rfl, haux, hatt]
      rw [List.find?_append, tryInitial_inr_attempts env name _ [] prev ht]
      rw [Option.none_or]
      exact refineLoop_attempts env name pub 5 prev

theorem snippetScan_inl (name : String) :
    ∀ (rs : List GResult) (bound : Bool) (e : String),
      snippetScan name rs bound = Sum.inl e → nameTokenMatch name e = true := by
  intro rs
  induction rs with
  | nil => intro bound e h; simp [snippetScan] at h
  | cons r rest ih =>
    intro bound e h
    simp only [snippetScan] at h
    cases hsn : r.snippet with
    | none =>
      simp only [hsn] at h
      exact ih bound e h
    | some s =>
      simp only [hsn] at h
      cases hfind : (extract_email_from_text s).find?
          (fun x => nameTokenMatch name x) with
      | some e2 =>
        simp only [hfind] at h
        injection h with h2
        rw [← h2]
        exact List.find?_some hfind
      | none =>
        simp only [hfind] at h
        exact ih _ e h

theorem perform_web_search_token_match (env : WebEnv) (name q : String)
    (hne : perform_web_search env name q ≠ "") :
    nameTokenMatch name (perform_web_search env name q) = true := by
  unfold perform_web_search at hne ⊢
  cases hs : env.search q with
  | error e =>
    simp only [hs] at hne
    exact absurd rfl hne
  | ok page =>
    simp only [hs] at hne ⊢
    by_cases hst : page.status = 200
    · rw [if_pos hst] at hne ⊢
      cases hsc : snippetScan name page.results false with
      | inl email =>
        simp only [hsc] at hne ⊢
        exact snippetScan_inl name page.results false email hsc
      | inr bound =>
        simp only [hsc] at hne ⊢
        cases hh : page.results.head? with
        | none =>
          simp only [hh] at hne
          exact absurd rfl hne
        | some fr =>
          simp only [hh] at hne ⊢
          cases hl : fr.link with
          | none =>
            simp only [hl] at hne
            exact absurd rfl hne
          | some href =>
            simp only [hl] at hne ⊢
            cases hf : env.fetch (env.contactPage href) with
            | error err =>
              simp only [hf] at hne
              exact absurd rfl hne
            | ok text =>
              simp only [hf] at hne ⊢
              by_cases hb : bound = true
              · rw [if_pos hb] at hne ⊢
                cases hfind : (extract_email_from_text text).find?
                    (fun x => nameTokenMatch name x) with
                | none =>
                  simp only [hfind] at hne
                  exact absurd rfl hne
                | some e2 =>
                  simp only [hfind] at hne ⊢
                  exact List.find?_some hfind
              · rw [if_neg hb] at hne
                exact absurd rfl hne
    · rw [if_neg hst] at hne
      exact absurd rfl hne

theorem tryInitial_inl_source (env : ResolverEnv) (name : String) :
    ∀ (qs prev : List String) (e : String),
      tryInitial env name qs prev = Sum.inl e →
      ∃ q, perform_web_search env.web name q = e := by
  intro qs
  induction qs with
  | nil => intro prev e h; simp [tryInitial] at h
  | cons q rest ih =>
    intro prev e h
    simp only [tryInitial] at h
    by_cases he : perform_web_search env.web name q = ""
    · rw [if_neg (fun hne => hne he)] at h
      exact ih (prev ++ [q]) e h
    · rw [if_pos he] at h
      injection h with h2
      exact ⟨q, h2⟩

theorem refineLoop_source (env : ResolverEnv) (name pub : String) :
    ∀ (fuel : Nat) (prev : List String),
      (refineLoop env name pub prev fuel).1 ≠ "" →
      ∃ q, perform_web_search env.web name q =
        (refineLoop env name pub prev fuel).1 := by
  intro fuel
  induction fuel with
  | zero => intro prev h; simp [refineLoop] at h
  | succ k ih =>
    intro prev h
    simp only [refineLoop] at h ⊢
    by_cases hq : generate_search_query env name pub prev = ""
    · rw [if_pos hq] at h
      exact absurd rfl h
    · rw [if_neg hq] at h ⊢
      by_cases he : perform_web_search env.web name
          (generate_search_query env name pub prev) = ""
      · rw [if_neg (fun hne => hne he)] at h ⊢
        exact ih (prev ++ [generate_search_query env name pub prev]) h
      · rw [if_pos he] at h ⊢
        exact ⟨generate_search_query env name pub prev, rfl⟩

/-- C6 amended: every non-empty email the resolver returns matched the
name-token test that the source applies — a case-insensitive substring
match of some whitespace token of the name against the **whole** email
address (`any(part in email.lower() for part in name.lower().split())`),
not just its local part. -/
theorem search_journalist_email_result_shares_name_token :
    ∀ (env : ResolverEnv) (name pub : String),
      search_journalist_email env name pub ≠ "" →
      nameTokenMatch name (search_journalist_email env name pub) = true := by
  intro env name pub hne
  cases ht : tryInitial env name (initial_queries name pub) [] with
  | inl e =>
    have haux : search_journalist_email env name pub = e := by
      unfold search_journalist_email search_journalist_email_aux
      rw [ht]
    rw [haux] at hne ⊢
    obtain ⟨q, hq⟩ := tryInitial_inl_source env name _ [] e ht
    rw [← hq]
    exact perform_web_search_token_match env.web name q (by rw [hq]; exact hne)
  | inr prev =>
    have haux : search_journalist_email env name pub =
        (refineLoop env name pub prev 5).1 := by
      unfold search_journalist_email search_journalist_email_aux
      rw [ht]
    rw [haux] at hne ⊢
    obtain ⟨q, hq⟩ := refineLoop_source env name pub 5 prev hne
    rw [← hq]
    exact perform_web_search_token_match env.web name q (by rw [hq]; exact hne)

/-- Web environment whose first search returns one snippet holding an email
whose *domain* carries the journalist's surname. -/
def webEnvC6 : WebEnv :=
  { search := fun _ => Except.ok
      { status := 200,
        results := [{ snippet := some "contact info@smith.com now",
                      link := none }] },
    contactPage := fun u => u,
    fetch := fun _ => Except.error "net" }

/-- Resolver environment for the C6 counterexample. -/
def envC6 : ResolverEnv :=
  { web := webEnvC6, gen := fun _ _ _ => Except.error "gen" }

/-- C6 counterexample: for the name "Smith Jones" the resolver returns
`info@smith.com`, whose local part `info` shares no token with the name —
the token `smith` appears only in the domain.  The claim that such an email
is never returned is false on the code, whose test matches tokens against
the whole address. -/
theorem search_journalist_email_domain_only_match_returned :
    search_journalist_email envC6 "Smith Jones" "" = "info@smith.com" ∧
    emailLocalPart "info@smith.com" = "info" ∧
    ((pySplit (pyLower "Smith Jones")).all
      (fun part => !(pyIn part (pyLower "info")))) = true := by
  refine ⟨by decide, by decide, by decide⟩

/-- C6 witness: the amended theorem applied to the counterexample
environment. -/
theorem search_journalist_email_token_witness :
    nameTokenMatch "Smith Jones"
      (search_journalist_email envC6 "Smith Jones" "") = true :=
  search_journalist_email_result_shares_name_token envC6 "Smith Jones" ""
    (by decide)
